import Mathlib

/-!
# Verification of the butido build-submission pipeline

Shallow embedding of the parts of the butido sources that the checked
properties are about:

* `src/package/source.rs` — `HashType::hash_from_reader`,
  `SourceHash::matches_hash_of` (hash pipeline of the source cache);
* `src/filestore/util.rs` — `FileStoreImpl::load`,
  `FileStoreImpl::load_from_path` (the staging / release file store);
* `src/commands/build.rs` — the `build` command (step order, policy
  checks, failed-job log reporting);
* `src/commands/db.rs` — the `releases` listing.

Bytes are `Nat` values below 256; paths are lists of path components;
machine integers that matter nowhere overflow in the modelled code, so
plain `Nat` is used.  External collaborators (the SHA digest crates, the
filesystem, the database) appear as explicit function parameters, so every
definition stays computable and can be evaluated on concrete inputs.
-/

namespace Butido

/-- Equality of `Except` results is decidable when it is on both sides;
used to evaluate the embedded fallible operations on concrete inputs. -/
instance {ε α : Type _} [DecidableEq ε] [DecidableEq α] :
    DecidableEq (Except ε α) := fun x y =>
  match x, y with
  | .error a, .error b =>
    if h : a = b then .isTrue (by rw [h])
    else .isFalse (fun he => h (by injection he))
  | .error _, .ok _ => .isFalse (fun he => Except.noConfusion he)
  | .ok _, .error _ => .isFalse (fun he => Except.noConfusion he)
  | .ok a, .ok b =>
    if h : a = b then .isTrue (by rw [h])
    else .isFalse (fun he => h (by injection he))

/-! ## Bytes, hex encoding, UTF-8 decoding

`format!("{:x}", m.finalize())` on a digest prints every byte as two
lowercase hex digits; `String::from_utf8` validates UTF-8 (as in the Rust
standard library: no overlong forms, no surrogates, no values above
U+10FFFF) and fails otherwise.
-/

/-- A byte, as read from a reader or produced by a digest: a `Nat < 256`. -/
abbrev Byte := Nat

/-- One lowercase hexadecimal digit for `n < 16` (as `{:x}` prints it). -/
def hexDigit (n : Nat) : Char :=
  if n < 10 then Char.ofNat (48 + n) else Char.ofNat (87 + n)

/-- Two lowercase hex digits for one byte, high nibble first. -/
def hexByte (b : Byte) : String :=
  String.mk [hexDigit (b / 16), hexDigit (b % 16)]

/-- Lowercase hex encoding of a byte sequence, exactly what
`format!("{:x}", digest)` produces in `hash_from_reader`. -/
def hexEncode (bs : List Byte) : String :=
  String.join (bs.map hexByte)

/-- Is `b` a UTF-8 continuation byte (`0x80 ..= 0xBF`)? -/
def isCont (b : Byte) : Bool := 0x80 ≤ b && b ≤ 0xBF

/-- UTF-8 decoding as `String::from_utf8` performs it: `none` on any
invalid sequence (lone continuation bytes, truncated sequences, overlong
forms, surrogates, values above U+10FFFF), otherwise the decoded
characters. -/
def utf8Decode : List Byte → Option (List Char)
  | [] => some []
  | b :: rest =>
    if b < 0x80 then
      (utf8Decode rest).map (Char.ofNat b :: ·)
    else if 0xC2 ≤ b && b ≤ 0xDF then
      match rest with
      | b1 :: rest' =>
        if isCont b1 then
          (utf8Decode rest').map (Char.ofNat ((b - 0xC0) * 64 + (b1 - 0x80)) :: ·)
        else none
      | _ => none
    else if 0xE0 ≤ b && b ≤ 0xEF then
      match rest with
      | b1 :: b2 :: rest' =>
        let lo1 : Byte := if b = 0xE0 then 0xA0 else 0x80
        let hi1 : Byte := if b = 0xED then 0x9F else 0xBF
        if (lo1 ≤ b1 && b1 ≤ hi1) && isCont b2 then
          (utf8Decode rest').map
            (Char.ofNat ((b - 0xE0) * 4096 + (b1 - 0x80) * 64 + (b2 - 0x80)) :: ·)
        else none
      | _ => none
    else if 0xF0 ≤ b && b ≤ 0xF4 then
      match rest with
      | b1 :: b2 :: b3 :: rest' =>
        let lo1 : Byte := if b = 0xF0 then 0x90 else 0x80
        let hi1 : Byte := if b = 0xF4 then 0x8F else 0xBF
        if (lo1 ≤ b1 && b1 ≤ hi1) && (isCont b2 && isCont b3) then
          (utf8Decode rest').map
            (Char.ofNat ((b - 0xF0) * 262144 + (b1 - 0x80) * 4096
              + (b2 - 0x80) * 64 + (b3 - 0x80)) :: ·)
        else none
      | _ => none
    else none

/-- `String::from_utf8(bytes)` as an `Option String`. -/
def stringFromUtf8 (bs : List Byte) : Option String :=
  (utf8Decode bs).map String.mk

/-! ## The hash pipeline (`src/package/source.rs`)

`HashType::hash_from_reader` reads the input through a 1024-byte buffer:
each `read` call yields `count` bytes, `count = 0` ends the loop, and
`m.update(&buffer[..count])` feeds exactly those bytes to the digest.  A
reader is therefore modelled as the list of chunks its successive `read`
calls return, and a streaming digest by the digest of the concatenation
of the absorbed chunks (the update/finalize law of the `sha1`/`sha2`
crates).  The digest functions themselves are external crates and enter
as parameters. -/

/-- The three digest functions of the `sha1`/`sha2` crates, as abstract
maps from the full absorbed input to the digest bytes. -/
structure ShaImpls where
  sha1d : List Byte → List Byte
  sha256d : List Byte → List Byte
  sha512d : List Byte → List Byte

/-- `enum HashType { Sha1, Sha256, Sha512 }`. -/
inductive HashType
  | sha1
  | sha256
  | sha512
deriving DecidableEq, Repr

/-- `pub struct HashValue(String)` — the newtype adds nothing the proofs
need, so a hash value is its inner string. -/
abbrev HashValue := String

/-- The read loop of `hash_from_reader`: absorb chunk after chunk into
the accumulator, stopping at the first empty read (EOF). -/
def absorbLoop (acc : List Byte) : List (List Byte) → List Byte
  | [] => acc
  | c :: cs => if c.length = 0 then acc else absorbLoop (acc ++ c) cs

/-- `HashType::hash_from_reader`, per variant exactly as the source:
`Sha1` and `Sha256` return `Ok(format!("{:x}", m.finalize()))`; `Sha512`
returns `Ok(String::from_utf8(m.finalize()[..].to_vec())?)`, i.e. it
interprets the raw digest bytes as UTF-8 instead of hex-encoding them,
and the `?` turns an invalid sequence into an error. -/
def hashFromReader (impls : ShaImpls) (t : HashType) (chunks : List (List Byte)) :
    Except String HashValue :=
  match t with
  | .sha1 => .ok (hexEncode (impls.sha1d (absorbLoop [] chunks)))
  | .sha256 => .ok (hexEncode (impls.sha256d (absorbLoop [] chunks)))
  | .sha512 =>
    match stringFromUtf8 (impls.sha512d (absorbLoop [] chunks)) with
    | some s => .ok s
    | none => .error "invalid utf-8 sequence"

/-- `struct SourceHash { hashtype, value }`. -/
structure SourceHash where
  hashtype : HashType
  value : HashValue
deriving DecidableEq, Repr

/-- `SourceHash::matches_hash_of`: hash the reader (wrapping a hashing
failure with the `"Hashing failed"` context), then compare with the
declared value; equality gives `Ok(())`, inequality the
`"Hash mismatch"` error naming both values. -/
def matchesHashOf (impls : ShaImpls) (sh : SourceHash) (chunks : List (List Byte)) :
    Except String Unit :=
  match hashFromReader impls sh.hashtype chunks with
  | .error e => .error ("Hashing failed: " ++ e)
  | .ok h =>
    if h = sh.value then .ok ()
    else .error ("Hash mismatch, expected '" ++ sh.value ++ "', got '" ++ h ++ "'")

/-- The SHA-512 digest of the empty input (the well-known constant
`cf83e135…927da3e`), as raw bytes. -/
def sha512EmptyDigest : List Byte :=
  [0xcf, 0x83, 0xe1, 0x35, 0x7e, 0xef, 0xb8, 0xbd,
   0xf1, 0x54, 0x28, 0x50, 0xd6, 0x6d, 0x80, 0x07,
   0xd6, 0x20, 0xe4, 0x05, 0x0b, 0x57, 0x15, 0xdc,
   0x83, 0xf4, 0xa9, 0x21, 0xd3, 0x6c, 0xe9, 0xce,
   0x47, 0xd0, 0xd1, 0x3c, 0x5d, 0x85, 0xf2, 0xb0,
   0xff, 0x83, 0x18, 0xd2, 0x87, 0x7e, 0xec, 0x2f,
   0x63, 0xb9, 0x31, 0xbd, 0x47, 0x41, 0x7a, 0x81,
   0xa5, 0x38, 0x32, 0x7a, 0xf9, 0x27, 0xda, 0x3e]

/-! ## The file store (`src/filestore/util.rs`)

Paths are lists of components.  A directory tree is a `FsEntry`; a
symlink is kept as its own constructor because `FileStoreImpl::load`
configures `WalkDir` with `follow_links(false)`. -/

/-- A path, absolute or relative according to use, as its components. -/
abbrev PathC := List String

/-- One filesystem entry: a regular file, a directory with its children,
or a symbolic link (not followed by the walk). -/
inductive FsEntry
  | file (name : String)
  | dir (name : String) (children : List FsEntry)
  | symlink (name : String)

/-- The entry's own name. -/
def FsEntry.name : FsEntry → String
  | .file n => n
  | .dir n _ => n
  | .symlink n => n

/-- `DirEntry::file_type().is_file()`. -/
def FsEntry.isFile : FsEntry → Bool
  | .file _ => true
  | _ => false

/-- `DirEntry::file_type().is_dir()`. -/
def FsEntry.isDir : FsEntry → Bool
  | .dir _ _ => true
  | _ => false

mutual

/-- `WalkDir::new(root).follow_links(false).into_iter().filter_entry(pred)`:
depth-first traversal starting at the root entry itself (depth 0); an
entry failing the predicate is not yielded and, when it is a directory,
is not descended into (its whole subtree is skipped).  Yields the paths
of the surviving entries relative to the walk root. -/
def walkFilterEntry (pred : FsEntry → Bool) (path : PathC) (e : FsEntry) :
    List PathC :=
  if pred e then
    path :: (match e with
      | .dir _ cs => walkFilterEntryList pred path cs
      | _ => [])
  else []

/-- The children of a directory, walked in order. -/
def walkFilterEntryList (pred : FsEntry → Bool) (path : PathC) :
    List FsEntry → List PathC
  | [] => []
  | c :: cs =>
    walkFilterEntry pred (path ++ [c.name]) c ++ walkFilterEntryList pred path cs

end

/-- `FileStoreImpl::load(path, progress)`: fails when the root is not a
directory; otherwise walks the root with
`filter_entry(|e| e.file_type().is_file())` and collects one map entry
per yielded walk entry, keyed by the path stripped relative to the root
(`Artifact::load` itself only reads the file, so an artifact is
represented by its stripped path). -/
def FileStoreImpl.load (root : FsEntry) : Except String (List PathC) :=
  if root.isDir then
    .ok (walkFilterEntry FsEntry.isFile [] root)
  else
    .error "File store cannot be loaded from non-directory"

/-- An artifact held by the store; its contents never matter to the
checked properties, so it is abstract. -/
structure Artifact where
  id : Nat
deriving DecidableEq, Repr

/-- The file store: the store root (a canonical absolute path) and the
`BTreeMap<ArtifactPath, Artifact>` as an association list. -/
structure FileStoreImplS where
  root : PathC
  store : List (PathC × Artifact)
deriving DecidableEq, Repr

/-- `FileStoreImpl::is_sub_path`: canonicalize the path (an error when
canonicalization fails, e.g. the file does not exist) and test whether
the canonical form starts with the store root.  `canon` is the
filesystem's `Path::canonicalize`. -/
def isSubPath (canon : PathC → Option PathC) (fs : FileStoreImplS) (p : PathC) :
    Except String Bool :=
  match canon p with
  | none => .error "canonicalize failed"
  | some c => .ok (fs.root.isPrefixOf c)

/-- Modelled from the spec: `StoreRoot::stripped_from` lives in
`src/filestore/path.rs`, which is not among the given sources.  Per the
spec it strips "a full path to an ArtifactPath (fails if the full path
does not canonicalize under the root)". -/
def strippedFrom (canon : PathC → Option PathC) (root p : PathC) :
    Except String PathC :=
  match canon p with
  | none => .error "canonicalize failed"
  | some c =>
    if root.isPrefixOf c then .ok (c.drop root.length)
    else .error "not under the store root"

/-- `FileStoreImpl::load_from_path(pb)`: reject a path that is not a
sub-path of the root (propagating a canonicalization error), strip it to
an artifact path, reject a key already present (`"Entry exists"`), else
load the artifact (`aload`, the fallible `Artifact::load`) and insert
it.  The returned store is the map after the call: unchanged on every
error, extended by exactly the new binding on success. -/
def loadFromPath (canon : PathC → Option PathC)
    (aload : PathC → PathC → Except String Artifact)
    (fs : FileStoreImplS) (pb : PathC) :
    FileStoreImplS × Except String Artifact :=
  match isSubPath canon fs pb with
  | .error e => (fs, .error e)
  | .ok false => (fs, .error "Not a sub-path of the store root")
  | .ok true =>
    match strippedFrom canon fs.root pb with
    | .error e => (fs, .error e)
    | .ok artPath =>
      if (fs.store.lookup artPath).isSome then
        (fs, .error "Entry exists")
      else
        match aload fs.root artPath with
        | .error e => (fs, .error e)
        | .ok a => ({ fs with store := fs.store ++ [(artPath, a)] }, .ok a)

/-! ## Parsed log rendering in the build command (`src/commands/build.rs`, lines 316–364)

After the orchestrator run, the build command prints, per failed job, a
tail of the job's parsed log.  `ParsedLog` (in `crate::log`, outside the
given sources) is by the spec a finite sequence of items
`Line(bytes) | Progress(u) | CurrentPhase(name) | State(ok | err(msg))`;
the printing logic itself is fully in `build.rs` and is embedded here.
Terminal colouring is dropped: only the rendered text matters. -/

/-- `crate::log::LogItem`, as the spec's §3 defines the items of a
parsed log. -/
inductive LogItem
  | line (bytes : List Byte)
  | progress (u : Nat)
  | currentPhase (p : String)
  | stateOk
  | stateErr (msg : String)
deriving DecidableEq, Repr

/-- The `parsed_log.iter().map(...)` fold of `build.rs` lines 321–339:
renders each item to the printed string, threading the two mutable
locals `last_phase` (updated by a `CurrentPhase` item only while no
`State(Err)` was seen yet) and `error_catched` (set by a `State(Err)`
item).  A `Line` whose bytes are not UTF-8 makes the whole
`collect::<Result<_>>` — and thus the build command — fail. -/
def renderLog : List LogItem → Option String → Bool →
    Except String (List String × Option String × Bool)
  | [], lastPhase, errorCatched => .ok ([], lastPhase, errorCatched)
  | item :: rest, lastPhase, errorCatched =>
    match item with
    | .line bs =>
      match stringFromUtf8 bs with
      | none => .error "invalid utf-8 sequence"
      | some s =>
        (renderLog rest lastPhase errorCatched).map
          (fun r => (s :: r.1, r.2))
    | .progress u =>
      (renderLog rest lastPhase errorCatched).map
        (fun r => (("#BUTIDO:PROGRESS:" ++ toString u) :: r.1, r.2))
    | .currentPhase p =>
      (renderLog rest (if errorCatched then lastPhase else some p) errorCatched).map
        (fun r => (("#BUTIDO:PHASE:" ++ p) :: r.1, r.2))
    | .stateOk =>
      (renderLog rest lastPhase errorCatched).map
        (fun r => ("#BUTIDO:STATE:OK" :: r.1, r.2))
    | .stateErr s =>
      (renderLog rest lastPhase true).map
        (fun r => (("#BUTIDO:STATE:ERR:" ++ s) :: r.1, r.2))

/-- `build.rs` lines 341–354: the rendered lines are enumerated and then
`skip`ped by `lines.len() - number_log_lines` when the log is longer
than the configured count, and by `lines.len()` — the whole list —
otherwise.  Returns the `(index, line)` pairs actually written. -/
def printedLogLines (lines : List String) (numberLogLines : Nat) :
    List (Nat × String) :=
  lines.enum.drop
    (if lines.length > numberLogLines then lines.length - numberLogLines
     else lines.length)

/-- `build.rs` lines 320–364 for one failed job: render the parsed log,
select the printed tail, and — when a terminal ERR state was parsed and
a phase was observed before it — report that phase
(`"Job errored in Phase '…'"`). -/
def failedJobOutput (log : List LogItem) (numberLogLines : Nat) :
    Except String (List (Nat × String) × Option String) :=
  match renderLog log none false with
  | .error e => .error e
  | .ok (lines, lastPhase, errorCatched) =>
    .ok (printedLogLines lines numberLogLines,
         if errorCatched then lastPhase.map (fun p => "Job errored in Phase '" ++ p ++ "'")
         else none)

/-! ## The build command (`src/commands/build.rs`, `pub async fn build`)

The command is a straight-line sequence of fallible steps; every
external collaborator (git, the repository index, the stores, the tree
builder, the linter, the database, the orchestrator) enters through a
`BuildEnv` field holding that step's outcome.  The embedding returns the
list of observable external actions performed (`BuildEvent`s) together
with the command's result, so the claims about what happens *before* an
error can be read off the event list. -/

/-- A package as the build command consumes it: identity, the image
allow/deny lists (`allowed_images()` / `denied_images()` return optional
lists), and the declared sources.  The `Package` type itself lives in
`crate::package` outside the given sources; the fields are those
`build.rs` and the spec's §3 use. -/
structure PackageS where
  name : String
  version : String
  allowedImages : Option (List String)
  deniedImages : Option (List String)
  sources : List SourceHash
deriving DecidableEq, Repr

/-- The per-package allow/deny check, `build.rs` lines 214–228: an
`allowed_images` list not containing the chosen image, checked first,
then a `denied_images` list containing it, each a distinct error. -/
def policyCheckOne (image : String) (pkg : PackageS) : Except String Unit :=
  match pkg.allowedImages with
  | some allowlist =>
    if allowlist.contains image then
      match pkg.deniedImages with
      | some deniedlist =>
        if deniedlist.contains image then
          .error ("Package " ++ pkg.name ++ " " ++ pkg.version
            ++ " is not allowed to be built on " ++ image)
        else .ok ()
      | none => .ok ()
    else
      .error ("Package " ++ pkg.name ++ " " ++ pkg.version ++ " is only allowed on allowlist")
  | none =>
    match pkg.deniedImages with
    | some deniedlist =>
      if deniedlist.contains image then
        .error ("Package " ++ pkg.name ++ " " ++ pkg.version
          ++ " is not allowed to be built on " ++ image)
      else .ok ()
    | none => .ok ()

/-- `build.rs` lines 212–229: the check over `tree.all_packages()`,
collected through `Result` so the first violating package aborts. -/
def policyCheck (image : String) : List PackageS → Except String Unit
  | [] => .ok ()
  | p :: ps =>
    match policyCheckOne image p with
    | .error e => .error e
    | .ok () => policyCheck image ps

/-- One package's sources, each checked with `SourceHash::matches_hash_of`. -/
def verifySourcesOf (impls : ShaImpls) (cacheChunks : SourceHash → List (List Byte)) :
    List SourceHash → Except String Unit
  | [] => .ok ()
  | s :: ss =>
    match matchesHashOf impls s (cacheChunks s) with
    | .error e => .error e
    | .ok () => verifySourcesOf impls cacheChunks ss

/-- Modelled from the spec: `crate::commands::source::verify_impl` is
not among the given sources.  Per the spec's §4.C it streams, "for every
source of every package in the tree, the cached file through the hash
algorithm specified by the source", compares to the declared value and
fails "on the first mismatch".  `cacheChunks` gives the cached file's
content (as read chunks) for a declared source. -/
def verifyImpl (impls : ShaImpls) (cacheChunks : SourceHash → List (List Byte)) :
    List PackageS → Except String Unit
  | [] => .ok ()
  | p :: ps =>
    match verifySourcesOf impls cacheChunks p.sources with
    | .error e => .error e
    | .ok () => verifyImpl impls cacheChunks ps

/-- Parsing one `--env` argument, `build.rs` lines 110–115:
`s.split("=")`, key = part 0, value = part 1; a missing part is an
error.  (Rust's `split` always yields at least one part, so only the
value can be missing.) -/
def parseEnvVar (s : String) : Except String (String × String) :=
  let v := s.splitOn "="
  match v.get? 0 with
  | none => .error ("Environment variable has no key: " ++ s)
  | some k =>
    match v.get? 1 with
    | none => .error ("Environment variable has no key: " ++ s)
    | some val => .ok (k, val)

/-- All `--env` arguments, collected through `Result`. -/
def parseEnvVars : List String → Except String (List (String × String))
  | [] => .ok []
  | s :: ss =>
    match parseEnvVar s with
    | .error e => .error e
    | .ok kv =>
      match parseEnvVars ss with
      | .error e => .error e
      | .ok kvs => .ok (kv :: kvs)

/-- The observable external actions of the build command, in the order
the command performs them.  `journalWrite t` covers both plain inserts
and `create_or_fetch` calls (which may create a row) on table `t`;
`endpointContact` is the orchestrator setup's endpoint validation;
`containerStart` stands for the containers the orchestrator run may
start. -/
inductive BuildEvent
  | releaseStoreLoaded
  | stagingStoreLoaded
  | treeBuilt
  | journalWrite (table : String)
  | jobsetsBuilt
  | endpointContact
  | orchestratorSetup
  | containerStart
deriving DecidableEq, Repr

/-- The environment of one `build` invocation: the command-line and
configuration data the step order depends on, and the outcome of every
fallible external step, in source order. -/
structure BuildEnv where
  /-- `config.docker().verify_images_present()` -/
  verifyImagesPresent : Bool
  /-- `config.docker().images()` -/
  configImages : List String
  /-- the `--image` argument -/
  imageName : String
  /-- `get_repo_head_commit_hash(repo_path)` -/
  gitHash : Except String String
  /-- the `--env` arguments -/
  envArgs : List String
  /-- `repo.find(&pname, &pvers)` resp. `repo.find_by_name(&pname)` -/
  findResult : List PackageS
  /-- `StoreRoot::new` + `ReleaseStore::load` on the releases directory -/
  releaseStoreLoad : Except String Unit
  /-- `create_dir_all` + `StoreRoot::new` + `StagingStore::load` -/
  stagingStoreLoad : Except String Unit
  /-- `Tree::add_package`, surfaced as the tree's `all_packages()` list -/
  treeResult : Except String (List PackageS)
  /-- the `--no-verification` flag -/
  noVerification : Bool
  /-- the digest functions used during verification -/
  shaImpls : ShaImpls
  /-- the source cache contents used during verification -/
  cacheChunks : SourceHash → List (List Byte)
  /-- the `--no-lint` flag -/
  noLint : Bool
  /-- `find_linter_command`: `ok true` when a linter is configured -/
  findLinter : Except String Bool
  /-- `lint_packages` -/
  lintResult : Except String Unit
  /-- `Package::create_or_fetch` -/
  dbPackage : Except String Unit
  /-- `GitHash::create_or_fetch` -/
  dbGitHash : Except String Unit
  /-- `Image::create_or_fetch` -/
  dbImage : Except String Unit
  /-- the `EnvVar::create_or_fetch` batch -/
  dbEnvs : Except String Unit
  /-- `Submit::create` -/
  submitCreate : Except String Unit
  /-- `JobSet::sets_from_tree` -/
  jobsets : Except String Unit
  /-- `OrchestratorSetup::…::setup()` -/
  orchSetup : Except String Unit
  /-- `orch.run`: produced artifact paths and `(job uuid, error)` pairs -/
  orchRun : Except String (List PathC × List (String × String))

/-- The linting step, `build.rs` lines 196–210: skipped under
`--no-lint`; otherwise a failing linter lookup or a failing lint run
aborts, and a missing linter only warns. -/
def lintStep (env : BuildEnv) : Except String Unit :=
  if env.noLint then .ok ()
  else
    match env.findLinter with
    | .error e => .error e
    | .ok true => env.lintResult
    | .ok false => .ok ()

/-- `tokio::join!` runs all four database futures to completion before
the four `?`s test them left to right, `build.rs` lines 249–256. -/
def firstDbError (p g i e : Except String Unit) : Except String Unit :=
  match p with
  | .error er => .error er
  | .ok () =>
    match g with
    | .error er => .error er
    | .ok () =>
      match i with
      | .error er => .error er
      | .ok () => e

/-- The steps of `build` from source-hash verification on, with the
dependency tree already built (`pkgs = tree.all_packages()`):
verification (line 188), linting (line 196), the allow/deny check
(line 212), the `create_or_fetch` batch (line 231), `Submit::create`
(line 260), job sets (line 271), orchestrator setup (line 276) and run
(line 293), and the final error summary (line 367). -/
def buildAfterTree (env : BuildEnv) (pkgs : List PackageS) :
    List BuildEvent × Except String Unit :=
  let evs0 : List BuildEvent := [.releaseStoreLoaded, .stagingStoreLoaded, .treeBuilt]
  match (if env.noVerification then Except.ok ()
         else verifyImpl env.shaImpls env.cacheChunks pkgs) with
  | .error e => (evs0, .error e)
  | .ok () =>
    match lintStep env with
    | .error e => (evs0, .error e)
    | .ok () =>
      match policyCheck env.imageName pkgs with
      | .error e => (evs0, .error e)
      | .ok () =>
        let evs1 := evs0 ++ [.journalWrite "packages", .journalWrite "githashes",
                             .journalWrite "images", .journalWrite "envvars"]
        match firstDbError env.dbPackage env.dbGitHash env.dbImage env.dbEnvs with
        | .error e => (evs1, .error e)
        | .ok () =>
          match env.submitCreate with
          | .error e => (evs1, .error e)
          | .ok () =>
            let evs2 := evs1 ++ [.journalWrite "submits"]
            match env.jobsets with
            | .error e => (evs2, .error e)
            | .ok () =>
              let evs3 := evs2 ++ [.jobsetsBuilt, .endpointContact]
              match env.orchSetup with
              | .error e => (evs3, .error e)
              | .ok () =>
                let evs4 := evs3 ++ [.orchestratorSetup, .containerStart]
                match env.orchRun with
                | .error e => (evs4, .error e)
                | .ok (_artifacts, errors) =>
                  (evs4 ++ [.journalWrite "jobs"],
                   if errors.isEmpty then .ok ()
                   else .error "One or multiple errors during build")

/-- `pub async fn build`, `src/commands/build.rs` lines 40–372, as the
sequence of its fallible steps in source order, paired with the
observable actions performed up to the point reached:

1. reject an image absent from the configured list (line 70);
2. read the repository HEAD (line 80);
3. parse the `--env` arguments (line 108);
4. resolve the package and reject zero or several matches (lines 119–131);
5. load the release store (line 133) and the staging store (line 148);
6. build the dependency tree (line 175);
7. verify source hashes unless `--no-verification` (line 188);
8. lint unless `--no-lint` (line 196);
9. the image allow/deny check over the tree (line 212);
10. the `create_or_fetch` batch (line 231), `Submit::create` (line 260);
11. job sets (line 271), orchestrator setup (line 276), run (line 293);
12. report artifacts and failed jobs; any failed job makes the command
    itself return an error (line 367). -/
def build (env : BuildEnv) : List BuildEvent × Except String Unit :=
  if env.verifyImagesPresent && !(env.configImages.contains env.imageName) then
    ([], .error "Requested build image is not in the configured images")
  else
    match env.gitHash with
    | .error e => ([], .error e)
    | .ok _hash =>
      match parseEnvVars env.envArgs with
      | .error e => ([], .error e)
      | .ok _additionalEnv =>
        if env.findResult.length > 1 then
          ([], .error "Found multiple packages. Cannot decide which one to build")
        else
          match env.findResult.get? 0 with
          | none => ([], .error "Found no package.")
          | some _package =>
            match env.releaseStoreLoad with
            | .error e => ([], .error e)
            | .ok () =>
              match env.stagingStoreLoad with
              | .error e => ([.releaseStoreLoaded], .error e)
              | .ok () =>
                match env.treeResult with
                | .error e => ([.releaseStoreLoaded, .stagingStoreLoaded], .error e)
                | .ok pkgs => buildAfterTree env pkgs

/-! ## The releases listing (`src/commands/db.rs`, `fn releases`)

The database rows come back joined and ordered; each row is kept exactly
when the file at `releases_directory/store_name/path` exists as a
regular file, and dropped with a warning otherwise. -/

/-- One joined row of the releases query: the artifact's path, the
package, the release date and the release store's name. -/
structure ReleaseRow where
  artifactPath : PathC
  packageName : String
  packageVersion : String
  releaseDate : String
  storeName : String
deriving DecidableEq, Repr

/-- `config.releases_directory().join(rstore.store_name).join(&art.path)`. -/
def releaseFilePath (releasesDir : PathC) (r : ReleaseRow) : PathC :=
  releasesDir ++ [r.storeName] ++ r.artifactPath

/-- The displayed record for one kept row. -/
def releaseRecord (releasesDir : PathC) (r : ReleaseRow) : List String :=
  [r.packageName, r.packageVersion, r.releaseDate,
   String.intercalate "/" (releaseFilePath releasesDir r)]

/-- The `filter_map` of `fn releases`: keep a row iff `p.is_file()`
(`isFile` is the filesystem's answer), rendering kept rows; an absent
file only drops its row. -/
def releasesData (isFile : PathC → Bool) (releasesDir : PathC)
    (rows : List ReleaseRow) : List (List String) :=
  rows.filterMap (fun r =>
    if isFile (releaseFilePath releasesDir r) then
      some (releaseRecord releasesDir r)
    else none)

/-- `fn releases`, `db.rs` lines 550–591: load the joined, ordered rows
(`dbLoad`, which may fail), filter on on-disk existence, display
(`display`, which may fail).  No error path depends on a missing file. -/
def releasesCmd (dbLoad : Except String (List ReleaseRow))
    (isFile : PathC → Bool) (releasesDir : PathC)
    (display : List (List String) → Except String Unit) : Except String Unit :=
  match dbLoad with
  | .error e => .error e
  | .ok rows => display (releasesData isFile releasesDir rows)

/-! ## Concrete fixtures

Closed values used to evaluate the embedded operations on concrete
inputs. -/

/-- Digest functions instantiated to the constant digest `[0xab]`
(hex `"ab"`), for evaluating the hash pipeline on concrete inputs. -/
def shaImplsAB : ShaImpls :=
  ⟨fun _ => [0xab], fun _ => [0xab], fun _ => [0xab]⟩

/-- Digest functions under which the SHA-512 digest of the empty input
is the real SHA-512 constant. -/
def shaImplsSha512Empty : ShaImpls := ⟨id, id, fun _ => sha512EmptyDigest⟩

/-- Identity canonicalization: every path exists and is already
canonical. -/
def canonId : PathC → Option PathC := fun p => some p

/-- Artifact loading that always succeeds. -/
def aloadOk : PathC → PathC → Except String Artifact := fun _ _ => .ok ⟨0⟩

/-- A store rooted at `store` already holding the artifact path `a`. -/
def fsWithA : FileStoreImplS := ⟨["store"], [(["a"], ⟨1⟩)]⟩

/-- The events the build command may have performed before the
source-verification / lint / policy steps decide its fate. -/
def preEvents : List BuildEvent :=
  [.releaseStoreLoaded, .stagingStoreLoaded, .treeBuilt]

/-- A package with no policy lists and no sources. -/
def pkgPlain : PackageS := ⟨"pkg", "1.0", none, none, []⟩

/-- A package whose `allowed_images` list is empty, so no image is
acceptable. -/
def pkgAllowNone : PackageS := ⟨"pkg", "1.0", some [], none, []⟩

/-- A package with one declared sha256 source whose declared value
`"zz"` cannot equal any hex digest. -/
def pkgBadHash : PackageS := ⟨"pkg", "1.0", none, none, [⟨.sha256, "zz"⟩]⟩

/-- A build environment in which every step succeeds. -/
def envBase : BuildEnv where
  verifyImagesPresent := false
  configImages := ["img-x"]
  imageName := "img-x"
  gitHash := .ok "deadbeef"
  envArgs := []
  findResult := [pkgPlain]
  releaseStoreLoad := .ok ()
  stagingStoreLoad := .ok ()
  treeResult := .ok [pkgPlain]
  noVerification := true
  shaImpls := shaImplsAB
  cacheChunks := fun _ => []
  noLint := true
  findLinter := .ok false
  lintResult := .ok ()
  dbPackage := .ok ()
  dbGitHash := .ok ()
  dbImage := .ok ()
  dbEnvs := .ok ()
  submitCreate := .ok ()
  jobsets := .ok ()
  orchSetup := .ok ()
  orchRun := .ok ([], [])

/-- `envBase` with a tree containing a package no image is allowed for. -/
def envPolicyViolation : BuildEnv := { envBase with treeResult := .ok [pkgAllowNone] }

/-- `envBase` with verification enabled and a tree containing a package
whose declared source hash cannot match its cached content. -/
def envHashMismatch : BuildEnv :=
  { envBase with noVerification := false, treeResult := .ok [pkgBadHash] }

/-- `envBase` with a package query that matches nothing. -/
def envNoPackage : BuildEnv := { envBase with findResult := [] }

/-! # Theorems -/

/-! ## Helper lemmas -/

/-- The read loop absorbs exactly the concatenation of the chunks when
no chunk is empty (an empty read means EOF and ends the loop). -/
theorem absorbLoop_eq_append (chunks : List (List Byte))
    (h : ∀ c ∈ chunks, c ≠ []) :
    ∀ acc, absorbLoop acc chunks = acc ++ chunks.flatten := by
  induction chunks with
  | nil => intro acc; simp [absorbLoop]
  | cons c cs ih =>
    intro acc
    have hc : ¬ c.length = 0 := by
      simpa using h c (by simp)
    simp only [absorbLoop, if_neg hc]
    rw [ih (fun x hx => h x (by simp [hx])) (acc ++ c)]
    simp

/-- A hash mismatch makes `matches_hash_of` fail. -/
theorem matchesHashOf_ne_ok_of_mismatch (impls : ShaImpls) (sh : SourceHash)
    (chunks : List (List Byte)) (h : HashValue)
    (hh : hashFromReader impls sh.hashtype chunks = .ok h) (hne : h ≠ sh.value) :
    matchesHashOf impls sh chunks ≠ .ok () := by
  simp [matchesHashOf, hh, hne]

/-- A failing source check makes the whole per-package source list
check fail. -/
theorem verifySourcesOf_ne_ok (impls : ShaImpls)
    (cacheChunks : SourceHash → List (List Byte)) (ss : List SourceHash)
    (s : SourceHash) (hmem : s ∈ ss)
    (hne : matchesHashOf impls s (cacheChunks s) ≠ .ok ()) :
    verifySourcesOf impls cacheChunks ss ≠ .ok () := by
  induction ss with
  | nil => cases hmem
  | cons p ps ih =>
    rcases List.mem_cons.mp hmem with rfl | hmem'
    · cases h1 : matchesHashOf impls s (cacheChunks s) with
      | error e => simp [verifySourcesOf, h1]
      | ok u => cases u; exact absurd h1 hne
    · cases h1 : matchesHashOf impls p (cacheChunks p) with
      | error e => simp [verifySourcesOf, h1]
      | ok u => cases u; simpa [verifySourcesOf, h1] using ih hmem'

/-- A failing source check in any package of the tree makes
verification fail. -/
theorem verifyImpl_ne_ok (impls : ShaImpls)
    (cacheChunks : SourceHash → List (List Byte)) (pkgs : List PackageS)
    (pkg : PackageS) (s : SourceHash) (hp : pkg ∈ pkgs) (hs : s ∈ pkg.sources)
    (hne : matchesHashOf impls s (cacheChunks s) ≠ .ok ()) :
    verifyImpl impls cacheChunks pkgs ≠ .ok () := by
  induction pkgs with
  | nil => cases hp
  | cons p ps ih =>
    rcases List.mem_cons.mp hp with rfl | hp'
    · cases h1 : verifySourcesOf impls cacheChunks pkg.sources with
      | error e => simp [verifyImpl, h1]
      | ok u =>
        cases u
        exact absurd h1 (verifySourcesOf_ne_ok impls cacheChunks pkg.sources s hs hne)
    · cases h1 : verifySourcesOf impls cacheChunks p.sources with
      | error e => simp [verifyImpl, h1]
      | ok u => cases u; simpa [verifyImpl, h1] using ih hp'

/-- A package violating the image allow/deny policy fails its check. -/
theorem policyCheckOne_ne_ok (image : String) (pkg : PackageS)
    (h : (∃ allow, pkg.allowedImages = some allow ∧ allow.contains image = false) ∨
         (∃ denied, pkg.deniedImages = some denied ∧ denied.contains image = true)) :
    policyCheckOne image pkg ≠ .ok () := by
  rcases h with ⟨allow, ha, hc⟩ | ⟨denied, hd, hc⟩
  · have hni : image ∉ allow := by simpa using hc
    simp [policyCheckOne, ha, hni]
  · have hi : image ∈ denied := by simpa using hc
    cases hal : pkg.allowedImages with
    | none => simp [policyCheckOne, hal, hd, hi]
    | some allow =>
      by_cases hac : image ∈ allow
      · simp [policyCheckOne, hal, hd, hi, hac]
      · simp [policyCheckOne, hal, hac]

/-- A violating package anywhere in the list makes the collected policy
check fail. -/
theorem policyCheck_ne_ok (image : String) (pkgs : List PackageS)
    (pkg : PackageS) (hmem : pkg ∈ pkgs)
    (hviol : policyCheckOne image pkg ≠ .ok ()) :
    policyCheck image pkgs ≠ .ok () := by
  induction pkgs with
  | nil => cases hmem
  | cons p ps ih =>
    rcases List.mem_cons.mp hmem with rfl | hmem'
    · cases h1 : policyCheckOne image pkg with
      | error e => simp [policyCheck, h1]
      | ok u => cases u; exact absurd h1 hviol
    · cases h1 : policyCheckOne image p with
      | error e => simp [policyCheck, h1]
      | ok u => cases u; simpa [policyCheck, h1] using ih hmem'

/-! ## The hash pipeline claims -/

/-- Claim C1 (refuted by the `Sha512` branch): on the empty input, whose
SHA-512 digest is the well-known constant `sha512EmptyDigest`, the
`Sha512` branch of `hash_from_reader` returns the `String::from_utf8`
error — the raw digest bytes are not valid UTF-8 — instead of `Ok` of
their lowercase hex encoding, because the branch decodes the raw digest
bytes as UTF-8 instead of hex-encoding them. -/
theorem hashFromReader_sha512_not_hex :
    utf8Decode sha512EmptyDigest = none ∧
    hashFromReader shaImplsSha512Empty .sha512 [] = .error "invalid utf-8 sequence" ∧
    hashFromReader shaImplsSha512Empty .sha512 [] ≠ .ok (hexEncode sha512EmptyDigest) :=
  ⟨by decide, by decide, by decide⟩

/-- Claim C4: whenever hashing the input computes a digest `h`,
`matches_hash_of` returns `Ok(())` exactly when `h` equals the declared
value, and on any other digest it returns the error naming the expected
and the computed value. -/
theorem matchesHashOf_ok_iff (impls : ShaImpls) (sh : SourceHash)
    (chunks : List (List Byte)) (h : HashValue)
    (hh : hashFromReader impls sh.hashtype chunks = .ok h) :
    (matchesHashOf impls sh chunks = .ok () ↔ h = sh.value) ∧
    (h ≠ sh.value → matchesHashOf impls sh chunks =
      .error ("Hash mismatch, expected '" ++ sh.value ++ "', got '" ++ h ++ "'")) := by
  refine ⟨⟨fun hok => ?_, fun he => by simp [matchesHashOf, hh, he]⟩,
          fun hne => by simp [matchesHashOf, hh, hne]⟩
  by_contra hne
  simp [matchesHashOf, hh, hne] at hok

/-- Witness for C4: with the constant digest `"ab"` and the declared
value `"ab"`, the check succeeds. -/
theorem matchesHashOf_ok_iff_witness :
    hashFromReader shaImplsAB .sha256 [[1, 2]] = .ok "ab" ∧
    matchesHashOf shaImplsAB ⟨.sha256, "ab"⟩ [[1, 2]] = .ok () :=
  ⟨by decide,
   (matchesHashOf_ok_iff shaImplsAB ⟨.sha256, "ab"⟩ [[1, 2]] "ab" (by decide)).1.mpr rfl⟩

/-- Claim C6: the result of `hash_from_reader` depends only on the
concatenation of the chunks the reader delivers, not on how the input is
partitioned into (non-empty) reads. -/
theorem hashFromReader_chunk_independent (impls : ShaImpls) (t : HashType)
    (chunks1 chunks2 : List (List Byte))
    (h1 : ∀ c ∈ chunks1, c ≠ []) (h2 : ∀ c ∈ chunks2, c ≠ [])
    (heq : chunks1.flatten = chunks2.flatten) :
    hashFromReader impls t chunks1 = hashFromReader impls t chunks2 := by
  have e1 := absorbLoop_eq_append chunks1 h1 []
  have e2 := absorbLoop_eq_append chunks2 h2 []
  simp only [List.nil_append] at e1 e2
  cases t <;> simp [hashFromReader, e1, e2, heq]

/-- Witness for C6: `[1] ++ [2, 3]` and `[1, 2, 3]` hash alike. -/
theorem hashFromReader_chunk_independent_witness :
    (∀ c ∈ ([[1], [2, 3]] : List (List Byte)), c ≠ []) ∧
    ([[1], [2, 3]] : List (List Byte)).flatten = ([[1, 2, 3]] : List (List Byte)).flatten ∧
    hashFromReader shaImplsAB .sha256 [[1], [2, 3]] =
      hashFromReader shaImplsAB .sha256 [[1, 2, 3]] :=
  ⟨by decide, by decide,
   hashFromReader_chunk_independent shaImplsAB .sha256 _ _ (by decide) (by decide) (by decide)⟩

/-! ## The file store claims -/

/-- Claim C2 (refuted): `FileStoreImpl::load` yields an empty map for
every directory root, because `filter_entry(|e| e.file_type().is_file())`
rejects the root directory itself and thereby skips its entire subtree —
in particular the regular files `a.txt` and `sub/b.txt` of the concrete
root are omitted. -/
theorem fileStoreImpl_load_always_empty :
    FileStoreImpl.load (.dir "root" [.file "a.txt", .dir "sub" [.file "b.txt"]]) = .ok [] ∧
    ∀ (n : String) (cs : List FsEntry), FileStoreImpl.load (.dir n cs) = .ok [] := by
  refine ⟨rfl, fun n cs => ?_⟩
  simp [FileStoreImpl.load, FsEntry.isDir, walkFilterEntry, FsEntry.isFile]

/-- Claim C5: `load_from_path` fails — with the store map unchanged —
when the stripped artifact path is already a key of the map or when the
path does not canonicalize under the store root, it leaves the map
unchanged on every error, and it succeeds only for a path not yet
present (appending exactly the new binding). -/
theorem loadFromPath_spec (canon : PathC → Option PathC)
    (aload : PathC → PathC → Except String Artifact)
    (fs : FileStoreImplS) (pb : PathC) :
    (∀ c, canon pb = some c → fs.root.isPrefixOf c = true →
      (fs.store.lookup (c.drop fs.root.length)).isSome = true →
      loadFromPath canon aload fs pb = (fs, .error "Entry exists")) ∧
    (canon pb = none →
      loadFromPath canon aload fs pb = (fs, .error "canonicalize failed")) ∧
    (∀ c, canon pb = some c → fs.root.isPrefixOf c = false →
      loadFromPath canon aload fs pb = (fs, .error "Not a sub-path of the store root")) ∧
    ((loadFromPath canon aload fs pb).2.isOk = false →
      (loadFromPath canon aload fs pb).1 = fs) ∧
    (∀ a, (loadFromPath canon aload fs pb).2 = .ok a →
      ∃ c, canon pb = some c ∧ fs.root.isPrefixOf c = true ∧
        fs.store.lookup (c.drop fs.root.length) = none ∧
        (loadFromPath canon aload fs pb).1.store =
          fs.store ++ [(c.drop fs.root.length, a)]) := by
  refine ⟨fun c hc hpre hlk => ?_, fun hc => ?_, fun c hc hpre => ?_, ?_, fun a ha => ?_⟩
  · simp [loadFromPath, isSubPath, strippedFrom, hc, hpre, hlk]
  · simp [loadFromPath, isSubPath, hc]
  · simp [loadFromPath, isSubPath, hc, hpre]
  · cases hc : canon pb with
    | none => simp [loadFromPath, isSubPath, hc]
    | some c =>
      by_cases hpre : fs.root.isPrefixOf c
      · by_cases hlk : (fs.store.lookup (c.drop fs.root.length)).isSome
        · simp [loadFromPath, isSubPath, strippedFrom, hc, hpre, hlk]
        · cases hld : aload fs.root (c.drop fs.root.length) with
          | error e => simp [loadFromPath, isSubPath, strippedFrom, hc, hpre, hlk, hld]
          | ok a =>
            simp [loadFromPath, isSubPath, strippedFrom, hc, hpre, hlk, hld,
              Except.isOk, Except.toBool]
      · simp [loadFromPath, isSubPath, hc, hpre]
  · cases hc : canon pb with
    | none => simp [loadFromPath, isSubPath, hc] at ha
    | some c =>
      by_cases hpre : fs.root.isPrefixOf c
      · by_cases hlk : (fs.store.lookup (c.drop fs.root.length)).isSome
        · simp [loadFromPath, isSubPath, strippedFrom, hc, hpre, hlk] at ha
        · cases hld : aload fs.root (c.drop fs.root.length) with
          | error e => simp [loadFromPath, isSubPath, strippedFrom, hc, hpre, hlk, hld] at ha
          | ok a' =>
            have hres : loadFromPath canon aload fs pb =
                ({ fs with store := fs.store ++ [(c.drop fs.root.length, a')] }, .ok a') := by
              simp [loadFromPath, isSubPath, strippedFrom, hc, hpre, hlk, hld]
            rw [hres] at ha ⊢
            cases ha
            exact ⟨c, rfl, by simpa using hpre,
              Option.not_isSome_iff_eq_none.mp hlk, rfl⟩
      · simp [loadFromPath, isSubPath, hc, hpre] at ha

/-- Witness for C5: inserting the already-present path `store/a` into a
store rooted at `store` fails with `Entry exists` and leaves the map
unchanged. -/
theorem loadFromPath_spec_witness :
    loadFromPath canonId aloadOk fsWithA ["store", "a"] = (fsWithA, .error "Entry exists") :=
  (loadFromPath_spec canonId aloadOk fsWithA ["store", "a"]).1
    ["store", "a"] rfl (by decide) (by decide)

/-! ## The failed-job report claim -/

/-- Claim C3 (refuted for short logs): a failed job whose parsed log has
one item, with five lines configured, gets zero log lines printed — the
`skip` argument is `lines.len()` instead of `0` when the log is not
longer than the configured count.  When the log is longer (second
conjunct), the last N lines are printed and the phase observed before
the terminal ERR is reported, as the claim states. -/
theorem failedJobOutput_short_log_prints_nothing :
    failedJobOutput [.line [104, 105]] 5 = .ok ([], none) ∧
    failedJobOutput
        [.line [104], .currentPhase "build", .stateErr "disk full", .line [33]] 2 =
      .ok ([(2, "#BUTIDO:STATE:ERR:disk full"), (3, "!")],
           some "Job errored in Phase 'build'") :=
  ⟨by decide, by decide⟩

/-! ## The releases listing claim -/

/-- Claim C8: the releases listing consists of the rendered records of
exactly those rows whose file at `releases_directory/store_name/path`
exists; a row whose file is absent is merely dropped, and with the rows
loaded and the display succeeding the command succeeds no matter which
files are absent. -/
theorem releases_exists_filter (isFile : PathC → Bool) (releasesDir : PathC)
    (rows : List ReleaseRow) :
    releasesData isFile releasesDir rows =
      (rows.filter (fun r => isFile (releaseFilePath releasesDir r))).map
        (releaseRecord releasesDir) ∧
    releasesCmd (.ok rows) isFile releasesDir (fun _ => .ok ()) = .ok () := by
  refine ⟨?_, rfl⟩
  induction rows with
  | nil => rfl
  | cons r rs ih =>
    simp only [releasesData, List.filterMap_cons, List.filter_cons] at ih ⊢
    by_cases hr : isFile (releaseFilePath releasesDir r)
    · simp [hr, ih]
    · simp [hr, ih]

/-! ## The build command claims -/

/-- When verification or the policy check rejects the tree, the steps
after tree construction stop with an error and only the pre-existing
store/tree events. -/
theorem buildAfterTree_stops_early (env : BuildEnv) (pkgs : List PackageS)
    (h : (if env.noVerification then Except.ok ()
          else verifyImpl env.shaImpls env.cacheChunks pkgs) ≠ .ok () ∨
         policyCheck env.imageName pkgs ≠ .ok ()) :
    ∃ e, buildAfterTree env pkgs = (preEvents, .error e) := by
  cases hv : (if env.noVerification then Except.ok ()
              else verifyImpl env.shaImpls env.cacheChunks pkgs) with
  | error e => exact ⟨e, by simp [buildAfterTree, hv, preEvents]⟩
  | ok u =>
    cases u
    have hpol : policyCheck env.imageName pkgs ≠ .ok () := by
      rcases h with h | h
      · exact absurd hv h
      · exact h
    cases hl : lintStep env with
    | error e => exact ⟨e, by simp [buildAfterTree, hv, hl, preEvents]⟩
    | ok u =>
      cases u
      cases hp : policyCheck env.imageName pkgs with
      | error e => exact ⟨e, by simp [buildAfterTree, hv, hl, hp, preEvents]⟩
      | ok u => cases u; exact absurd hp hpol

/-- When the steps after tree construction are bound to stop with an
error, the whole build command fails and performs at most the store/tree
events. -/
theorem build_stops_before_submit (env : BuildEnv)
    (h : ∀ pkgs, env.treeResult = .ok pkgs →
      ∃ e, buildAfterTree env pkgs = (preEvents, .error e)) :
    (build env).2.isOk = false ∧ ∀ ev ∈ (build env).1, ev ∈ preEvents := by
  unfold build
  split
  · exact ⟨rfl, by simp [preEvents]⟩
  · split
    · exact ⟨rfl, by simp [preEvents]⟩
    · split
      · exact ⟨rfl, by simp [preEvents]⟩
      · split
        · exact ⟨rfl, by simp [preEvents]⟩
        · split
          · exact ⟨rfl, by simp [preEvents]⟩
          · split
            · exact ⟨rfl, by simp [preEvents]⟩
            · split
              · exact ⟨rfl, by simp [preEvents]⟩
              · split
                · exact ⟨rfl, by simp [preEvents]⟩
                · next pkgs heq =>
                  obtain ⟨e, he⟩ := h pkgs heq
                  rw [he]
                  exact ⟨rfl, by simp [preEvents]⟩

/-- Claim C7: a package in the dependency tree whose `allowed_images`
list misses the chosen image, or whose `denied_images` list contains it,
makes the build command fail before any job set is constructed, before
the orchestrator is set up and before any endpoint or container is
touched — no job is created or dispatched. -/
theorem build_policy_violation_aborts (env : BuildEnv) (pkgs : List PackageS)
    (pkg : PackageS) (ht : env.treeResult = .ok pkgs) (hmem : pkg ∈ pkgs)
    (hviol : (∃ allow, pkg.allowedImages = some allow ∧
                allow.contains env.imageName = false) ∨
             (∃ denied, pkg.deniedImages = some denied ∧
                denied.contains env.imageName = true)) :
    (build env).2.isOk = false ∧
    BuildEvent.jobsetsBuilt ∉ (build env).1 ∧
    BuildEvent.orchestratorSetup ∉ (build env).1 ∧
    BuildEvent.endpointContact ∉ (build env).1 ∧
    BuildEvent.containerStart ∉ (build env).1 := by
  have hpol : policyCheck env.imageName pkgs ≠ .ok () :=
    policyCheck_ne_ok env.imageName pkgs pkg hmem
      (policyCheckOne_ne_ok env.imageName pkg hviol)
  have hstop := build_stops_before_submit env (fun pkgs' ht' => by
    rw [ht] at ht'
    cases ht'
    exact buildAfterTree_stops_early env pkgs (Or.inr hpol))
  refine ⟨hstop.1, fun hmem' => ?_, fun hmem' => ?_, fun hmem' => ?_, fun hmem' => ?_⟩ <;>
    have := hstop.2 _ hmem' <;> simp [preEvents] at this

/-- Witness for C7: a tree containing a package whose allowlist is empty
aborts the build with no jobset, orchestrator, endpoint or container
event. -/
theorem build_policy_violation_aborts_witness :
    (build envPolicyViolation).2.isOk = false ∧
    BuildEvent.jobsetsBuilt ∉ (build envPolicyViolation).1 := by
  have h := build_policy_violation_aborts envPolicyViolation [pkgAllowNone] pkgAllowNone
    rfl (List.mem_singleton.mpr rfl) (Or.inl ⟨[], rfl, rfl⟩)
  exact ⟨h.1, h.2.1⟩

/-- Claim C9: with verification enabled and some source of the tree
whose cached content hashes to a value different from the declared one,
the build command fails without contacting any endpoint, without
starting any container and without writing any journal row (in
particular none beyond the Submit row). -/
theorem build_hash_mismatch_aborts (env : BuildEnv) (pkgs : List PackageS)
    (pkg : PackageS) (s : SourceHash) (h : HashValue)
    (hnv : env.noVerification = false)
    (ht : env.treeResult = .ok pkgs) (hp : pkg ∈ pkgs) (hs : s ∈ pkg.sources)
    (hok : hashFromReader env.shaImpls s.hashtype (env.cacheChunks s) = .ok h)
    (hne : h ≠ s.value) :
    (build env).2.isOk = false ∧
    (∀ t, BuildEvent.journalWrite t ∉ (build env).1) ∧
    BuildEvent.endpointContact ∉ (build env).1 ∧
    BuildEvent.containerStart ∉ (build env).1 := by
  have hver : verifyImpl env.shaImpls env.cacheChunks pkgs ≠ .ok () :=
    verifyImpl_ne_ok env.shaImpls env.cacheChunks pkgs pkg s hp hs
      (matchesHashOf_ne_ok_of_mismatch env.shaImpls s (env.cacheChunks s) h hok hne)
  have hstop := build_stops_before_submit env (fun pkgs' ht' => by
    rw [ht] at ht'
    cases ht'
    exact buildAfterTree_stops_early env pkgs (Or.inl (by rw [hnv]; simpa using hver)))
  refine ⟨hstop.1, fun t hmem' => ?_, fun hmem' => ?_, fun hmem' => ?_⟩ <;>
    have := hstop.2 _ hmem' <;> simp [preEvents] at this

/-- Witness for C9: a tree with one package whose single sha256 source
declares the impossible value `"zz"` aborts the build with no endpoint
contact. -/
theorem build_hash_mismatch_aborts_witness :
    (build envHashMismatch).2.isOk = false ∧
    BuildEvent.endpointContact ∉ (build envHashMismatch).1 := by
  have h := build_hash_mismatch_aborts envHashMismatch [pkgBadHash] pkgBadHash
    ⟨.sha256, "zz"⟩ "ab" rfl rfl (List.mem_singleton.mpr rfl)
    (List.mem_singleton.mpr rfl) (by decide) (by decide)
  exact ⟨h.1, h.2.2.1⟩

/-- Claim C10: when the package query yields no package or several, the
build command fails having performed no external action at all — no
store load, no tree, no journal row, no job set, no orchestrator. -/
theorem build_bad_package_resolution (env : BuildEnv)
    (h : env.findResult.length ≠ 1) :
    (build env).1 = [] ∧ (build env).2.isOk = false := by
  unfold build
  split
  · exact ⟨rfl, rfl⟩
  · split
    · exact ⟨rfl, rfl⟩
    · split
      · exact ⟨rfl, rfl⟩
      · split
        · exact ⟨rfl, rfl⟩
        · next hlen =>
          split
          · exact ⟨rfl, rfl⟩
          · next p hf =>
            exfalso
            have hpos : 0 < env.findResult.length := by
              cases hl : env.findResult with
              | nil => rw [hl] at hf; cases hf
              | cons a as => simp [hl]
            omega

/-- Witness for C10: an empty query result aborts the build with an
empty event list. -/
theorem build_bad_package_resolution_witness :
    (build envNoPackage).1 = [] ∧ (build envNoPackage).2.isOk = false :=
  build_bad_package_resolution envNoPackage (by decide)

end Butido
